/-
Verification of the do-snapshot retention tool (src/do-snapshot.py) against its
natural-language specification.

Shallow embedding conventions:
* Timestamps and durations are integers counting seconds.  The source keeps a
  snapshot's creation time as an ISO string and parses its first 19 characters
  with strptime; in the fixed zero-padded format used by both the API and the
  simulation (strftime of a second-precision datetime), lexicographic order of
  the strings coincides with chronological order, so the embedding carries the
  parsed timestamp directly.  timedelta values compare by total duration, so a
  timedelta is likewise an integer number of seconds.
* Python dicts mutated in place (the source stores the keys created_dt and age
  onto each snapshot dict) are modelled functionally: a Snapshot carries those
  two keys as Option fields, and the in-place stores become the function
  annotate.
* The deletion bookkeeping of apply_retention_policies (a dict from id to
  snapshot, with del by id for each snapshot the thinning pass discards)
  is modelled as a filter keeping exactly the snapshots whose id is kept by
  their tier's thinning pass; the two coincide whenever the snapshot ids are
  distinct, the data-model invariant (ids are opaque and unique).
* Python's stable list.sort keyed by the creation timestamp is modelled with
  List.insertionSort, which is stable for the total preorder used here.
-/
import Mathlib

namespace DoSnapshot

/-- A snapshot record, as the dicts handled by do-snapshot.py: id, name,
creation timestamp (seconds), list of regions holding a copy, and the two
keys created_dt and age that apply_retention_policies stores onto the dict
(absent, i.e. none, until that function has processed the snapshot). -/
structure Snapshot where
  id : Nat
  name : String
  created_at : Int
  regions : List String
  age : Option Int
  created_dt : Option Int
deriving DecidableEq

/-- A retention policy tier: (interval, age) as parsed from INTERVAL:AGE,
both in seconds.  The source tests the interval for falsiness, i.e. zero. -/
abbrev Policy := Int × Int

/-- Ordering of snapshots by creation timestamp (the sort key used by
snapshots.sort and by the final sorted(...) of apply_retention_policies). -/
def createdLE (s t : Snapshot) : Prop := s.created_at ≤ t.created_at

instance : DecidableRel createdLE := fun s t =>
  inferInstanceAs (Decidable (s.created_at ≤ t.created_at))

instance : IsTotal Snapshot createdLE := ⟨fun s t => Int.le_total s.created_at t.created_at⟩

instance : IsTrans Snapshot createdLE := ⟨fun _ _ _ h h' => Int.le_trans h h'⟩

/-- snapshots.sort keyed on the creation time (stable, ascending). -/
def sortSnapshots (l : List Snapshot) : List Snapshot := l.insertionSort createdLE

/-- The two in-place stores of apply_retention_policies:
snapshot, created_dt. := snapshot_time and snapshot, age. := now - snapshot_time. -/
def annotate (now : Int) (s : Snapshot) : Snapshot :=
  { s with age := some (now - s.created_at), created_dt := some s.created_at }

/-- The tier-assignment scan: the first policy (interval, age) in the given
order whose age the snapshot's age meets or exceeds (the for/if/break loop
building snapshots_by_policy). -/
def assignTier (policies : List Policy) (snapshotAge : Int) : Option Policy :=
  policies.find? (fun p => p.2 ≤ snapshotAge)

/-- The group of a tier: the snapshots of the sorted list whose assignment
scan stops at this policy, in sorted order (the list built under the key
(interval, age) in snapshots_by_policy). -/
def tierGroup (policies : List Policy) (now : Int) (sortedA : List Snapshot)
    (p : Policy) : List Snapshot :=
  sortedA.filter (fun s => assignTier policies (now - s.created_at) = some p)

/-- The delete condition of the thinning pass for one snapshot:
not interval or (last_kept and snapshot, created_dt. - last_kept < interval). -/
def tooClose (interval : Int) (lastKept : Option Int) (t : Int) : Bool :=
  match lastKept with
  | none => false
  | some lk => t - lk < interval

/-- One tier's thinning pass, returning the kept snapshots: iterate oldest to
newest, delete when the interval is zero or the snapshot is closer than the
interval to the last kept one, otherwise keep and advance last_kept. -/
def thinKept (interval : Int) : Option Int → List Snapshot → List Snapshot
  | _, [] => []
  | lastKept, s :: rest =>
    if interval = 0 || tooClose interval lastKept s.created_at then
      thinKept interval lastKept rest
    else
      s :: thinKept interval (some s.created_at) rest

/-- Whether a snapshot survives apply_retention_policies: snapshots assigned
to no tier are untouched; a snapshot assigned to a tier survives when the
tier's thinning pass keeps its id (the source deletes from snapshots_by_id
keyed on id). -/
def survives (policies : List Policy) (now : Int) (sortedA : List Snapshot)
    (s : Snapshot) : Bool :=
  match assignTier policies (now - s.created_at) with
  | none => true
  | some p => (thinKept p.1 none (tierGroup policies now sortedA p)).map Snapshot.id
      |>.contains s.id

/-- apply_retention_policies(args, snapshots, policies, now): sort the
snapshots ascending by creation time, store the created_dt and age keys,
group by first matching policy, thin each group, and return the snapshots
not deleted, sorted ascending by creation time. -/
def apply_retention_policies (snapshots : List Snapshot) (policies : List Policy)
    (now : Int) : List Snapshot :=
  let sortedA := (sortSnapshots snapshots).map (annotate now)
  sortedA.filter (survives policies now sortedA)

/-- The sorted, age-stored working list of apply_retention_policies. -/
def sortedAnn (snapshots : List Snapshot) (now : Int) : List Snapshot :=
  (sortSnapshots snapshots).map (annotate now)

/-- The spec's scheduler rule, written from its words: a new snapshot is due
when the survivor list is empty or the most recent survivor's age reaches
the minimum-freshness age.  (Second, spec-side definition kept for
comparison with the behavior of process_droplet.) -/
def scheduler_due_per_spec (survivors : List Snapshot) (min_age now : Int) : Bool :=
  match (sortSnapshots survivors).getLast? with
  | none => true
  | some s => decide (min_age ≤ now - s.created_at)

/-! Configuration parsing (parse_interval and the -k INTERVAL:AGE loop of
main).  Tokens are lists of characters; the error taxonomy follows the spec:
the two ValueErrors of parse_interval (unsupported suffix, non-number
magnitude) are the invalid-duration error, the unpack ValueError of
keep.split in main is the invalid-policy error, and indexing the last
character of an empty token raises an uncaught IndexError. -/

/-- Parse errors of the configuration surface. -/
inductive ParseError where
  | indexError : ParseError
  | invalidDuration : ParseError
  | invalidPolicy : ParseError
deriving DecidableEq

/-- Seconds per unit for each supported suffix of parse_interval: d gives
days, h hours, m thirty-day months, w weeks; any other character is an
unknown key of suffixmap. -/
def unitSeconds (c : Char) : Option Int :=
  if c = 'd' then some 86400
  else if c = 'h' then some 3600
  else if c = 'm' then some 2592000
  else if c = 'w' then some 604800
  else none

/-- Decimal value of a digit string. -/
def digitsVal (cs : List Char) : Nat :=
  cs.foldl (fun acc c => acc * 10 + (c.toNat - 48)) 0

/-- Model of Python int() applied to the magnitude part of a duration token:
an optional sign followed by at least one decimal digit; none when int()
raises ValueError. -/
def pyInt (cs : List Char) : Option Int :=
  match cs with
  | '-' :: rest =>
    if !rest.isEmpty && rest.all Char.isDigit then some (-(digitsVal rest : Int)) else none
  | '+' :: rest =>
    if !rest.isEmpty && rest.all Char.isDigit then some (digitsVal rest : Int) else none
  | _ =>
    if !cs.isEmpty && cs.all Char.isDigit then some (digitsVal cs : Int) else none

/-- parse_interval(interval): look up the last character in suffixmap (a
KeyError becomes the unsupported-suffix error), convert the rest with int()
(a ValueError becomes the must-be-a-number error), and return the resulting
timedelta in seconds.  An empty token fails the interval[-1] indexing. -/
def parse_interval (s : List Char) : Except ParseError Int :=
  match s.getLast? with
  | none => .error .indexError
  | some c =>
    match unitSeconds c with
    | none => .error .invalidDuration
    | some mult =>
      match pyInt s.dropLast with
      | none => .error .invalidDuration
      | some n => .ok (n * mult)

/-- str.split on the colon separator, with no limit: Python
token.split(sep) for a one-character sep. -/
def splitColon : List Char → List (List Char)
  | [] => [[]]
  | c :: rest =>
    if c = ':' then [] :: splitColon rest
    else
      match splitColon rest with
      | [] => [[c]]
      | h :: t => (c :: h) :: t

/-- One iteration of the -k parsing loop of main: split the token on the
colon (an unpack ValueError when the split does not give exactly two parts
becomes the invalid-policy error), then parse both parts with
parse_interval. -/
def parse_keep (s : List Char) : Except ParseError Policy :=
  match splitColon s with
  | [a, b] =>
    match parse_interval a with
    | .error e => .error e
    | .ok i =>
      match parse_interval b with
      | .error e => .error e
      | .ok g => .ok (i, g)
  | _ => .error .invalidPolicy

/-! Region sync: ensure_snapshot_regions plus the optimistic in-memory
update at the region loop of process_droplet; the spec's SyncRegions
contract bundles both. -/

/-- The union list(set(cur).union(des)): modelled keeping the current list
followed by the new regions, which has the same membership (Python's set
iteration order is unspecified; only membership is ever consulted). -/
def regionUnion (cur des : List String) : List String :=
  cur ++ des.filter (fun r => !cur.contains r)

/-- ensure_snapshot_regions(args, snapshot, regions): the missing-region
set, set(regions) - set(snapshot.regions); one transfer request is issued
per element. -/
def ensure_snapshot_regions (snapshot : Snapshot) (regions : List String) : List String :=
  regions.filter (fun r => !snapshot.regions.contains r)

/-- The spec's SyncRegions(snapshot, desiredRegions): the transfer requests
issued (the missing-region set) paired with the snapshot after the
optimistic region update performed by process_droplet. -/
def syncRegions (snapshot : Snapshot) (regions : List String) :
    List String × Snapshot :=
  (ensure_snapshot_regions snapshot regions,
   { snapshot with regions := regionUnion snapshot.regions regions })

/-! process_droplet and the simulation loop of main. -/

/-- Stand-in for now.strftime of the snapshot-name template: the embedding
renders the integer timestamp (strftime at second precision is injective,
which is all the name is used for). -/
def stampTime (t : Int) : String := toString t

/-- process_droplet(args, droplet, snapshots, policies, min_age, prefix, now)
restricted to its data flow: apply retention, update the surviving
snapshots' region sets, and decide whether to take a new snapshot.  The
scheduler check reads snapshots[-1].age on the input list, which
apply_retention_policies has sorted ascending and stored ages onto; the
new snapshot's name stamps now into the name template.  Returns the
survivors (with updated regions) and the new snapshot's name, if one was
taken. -/
def process_droplet (snapshots : List Snapshot) (policies : List Policy)
    (min_age : Int) (regions : List String) (pre : String) (now : Int) :
    List Snapshot × Option String :=
  let survivors := apply_retention_policies snapshots policies now
  let survivors := if regions.isEmpty then survivors
    else survivors.map (fun s => { s with regions := regionUnion s.regions regions })
  let sorted := sortSnapshots snapshots
  let due := match sorted.getLast? with
    | none => true
    | some s => decide (min_age ≤ now - s.created_at)
  (survivors, if due then some (pre ++ stampTime now) else none)

/-- The state of one simulation iteration: the current snapshot list, the
synthetic clock, and the next value of the id generator. -/
structure SimState where
  snapshots : List Snapshot
  now : Int
  nextId : Nat
deriving DecidableEq

/-- One iteration of the simulation while loop: draw an id from the
generator, run process_droplet at the current clock, append a fresh
snapshot (current clock as creation time, empty region list) when one was
taken, and advance the clock by the tick interval. -/
def simTick (policies : List Policy) (min_age : Int) (tick : Int)
    (regions : List String) (pre : String) (s : SimState) : SimState :=
  let (survivors, newname) := process_droplet s.snapshots policies min_age regions pre s.now
  let snapshots := match newname with
    | some nm => survivors ++ [⟨s.nextId, nm, s.now, [], none, none⟩]
    | none => survivors
  ⟨snapshots, s.now + tick, s.nextId + 1⟩

/-- The simulation while loop as a big-step relation: from a state whose
clock has reached the end instant the loop exits with that state; otherwise
one iteration runs and the loop continues. -/
inductive SimRun (policies : List Policy) (min_age tick : Int)
    (regions : List String) (pre : String) (endT : Int) : SimState → SimState → Prop where
  | done : ∀ s : SimState, ¬ s.now < endT → SimRun policies min_age tick regions pre endT s s
  | step : ∀ s s' : SimState, s.now < endT →
      SimRun policies min_age tick regions pre endT
        (simTick policies min_age tick regions pre s) s' →
      SimRun policies min_age tick regions pre endT s s'

/-! Basic lemmas about the embedding. -/

theorem annotate_created_at (now : Int) (s : Snapshot) :
    (annotate now s).created_at = s.created_at := rfl

theorem annotate_id (now : Int) (s : Snapshot) : (annotate now s).id = s.id := rfl

theorem annotate_annotate (now : Int) (s : Snapshot) :
    annotate now (annotate now s) = annotate now s := rfl

theorem apply_retention_policies_def (snapshots : List Snapshot)
    (policies : List Policy) (now : Int) :
    apply_retention_policies snapshots policies now =
      (sortedAnn snapshots now).filter (survives policies now (sortedAnn snapshots now)) := rfl

theorem sortedAnn_sorted (snapshots : List Snapshot) (now : Int) :
    List.Sorted createdLE (sortedAnn snapshots now) := by
  refine List.Pairwise.map _ (fun a b h => ?_) (List.sorted_insertionSort createdLE snapshots)
  simpa [createdLE, annotate] using h

theorem mem_sortedAnn (snapshots : List Snapshot) (now : Int) {s : Snapshot}
    (hs : s ∈ snapshots) : annotate now s ∈ sortedAnn snapshots now := by
  exact List.mem_map_of_mem _ ((List.mem_insertionSort createdLE).mpr hs)

theorem sortedAnn_mem (snapshots : List Snapshot) (now : Int) {t : Snapshot}
    (ht : t ∈ sortedAnn snapshots now) : ∃ s ∈ snapshots, t = annotate now s := by
  rcases List.mem_map.mp ht with ⟨s, hs, rfl⟩
  exact ⟨s, (List.mem_insertionSort createdLE).mp hs, rfl⟩

theorem sortedAnn_ids_nodup (snapshots : List Snapshot) (now : Int)
    (h : (snapshots.map Snapshot.id).Nodup) :
    ((sortedAnn snapshots now).map Snapshot.id).Nodup := by
  have hperm : List.Perm (sortSnapshots snapshots) snapshots :=
    List.perm_insertionSort createdLE snapshots
  have : ((sortSnapshots snapshots).map Snapshot.id).Nodup :=
    (hperm.map Snapshot.id).symm.nodup h
  simpa [sortedAnn, List.map_map, Function.comp] using this

/-! Region sync (claim C5). -/

/-- C5: calling SyncRegions twice on the same snapshot with the same desired
region set issues transfer requests only on the first call: the second
call's missing-region set is empty, because the first call's optimistic
update put every requested region into the in-memory region set; moreover
the missing-region set is empty exactly when the desired regions are
already present (an already-satisfied set is a no-op, no error). -/
theorem sync_regions_noop (s : Snapshot) (regs : List String) :
    (syncRegions (syncRegions s regs).2 regs).1 = [] ∧
    ((syncRegions s regs).1 = [] ↔ ∀ r ∈ regs, r ∈ s.regions) := by
  constructor
  · simp only [syncRegions, ensure_snapshot_regions, regionUnion]
    rw [List.filter_eq_nil_iff]
    intro r hr
    simp only [Bool.not_eq_true', Bool.not_eq_false, List.elem_iff, List.mem_append,
      List.mem_filter]
    by_cases hmem : r ∈ s.regions
    · exact Or.inl hmem
    · exact Or.inr ⟨hr, by simpa [List.elem_iff] using hmem⟩
  · simp only [syncRegions, ensure_snapshot_regions]
    rw [List.filter_eq_nil_iff]
    constructor
    · intro h r hr
      have := h r hr
      simpa [List.elem_iff] using this
    · intro h r hr
      simpa [List.elem_iff] using h r hr

/-! Configuration parsing (claim C7). -/

theorem unitSeconds_eq_none_iff (c : Char) :
    unitSeconds c = none ↔ c ∉ (['d', 'h', 'm', 'w'] : List Char) := by
  simp only [unitSeconds, List.mem_cons, List.not_mem_nil, or_false]
  split_ifs with h1 h2 h3 h4 <;> simp_all

theorem parse_interval_ne_invalidPolicy (s : List Char) :
    parse_interval s ≠ .error .invalidPolicy := by
  unfold parse_interval
  rcases hlast : s.getLast? with _ | c
  · simp
  · rcases hu : unitSeconds c with _ | m
    · simp [hu]
    · rcases hp : pyInt s.dropLast with _ | n <;> simp [hu, hp]

theorem parse_interval_invalidDuration_iff (s : List Char) (c : Char)
    (hlast : s.getLast? = some c) :
    parse_interval s = .error .invalidDuration ↔
      (unitSeconds c = none ∨ pyInt s.dropLast = none) := by
  unfold parse_interval
  rw [hlast]
  rcases hu : unitSeconds c with _ | m
  · simp [hu]
  · rcases hp : pyInt s.dropLast with _ | n <;> simp [hu, hp]

theorem splitColon_length (s : List Char) :
    (splitColon s).length = s.count ':' + 1 := by
  induction s with
  | nil => rfl
  | cons c rest ih =>
    by_cases hc : c = ':'
    · subst hc
      simp [splitColon, List.count_cons_self, ih]
    · simp only [splitColon, if_neg hc]
      rcases hsp : splitColon rest with _ | ⟨h, t⟩
      · rw [hsp] at ih; simp at ih
      · rw [hsp] at ih
        simp only [List.length_cons] at ih ⊢
        rw [List.count_cons_of_ne (fun h => hc h.symm)]
        omega

/-- C7: a duration token (nonempty, as it carries a magnitude and a unit)
fails with the invalid-duration error exactly when its unit suffix is not
one of d, h, m, w, or its magnitude is not an int() literal; and an
INTERVAL:AGE retention token fails with the invalid-policy error exactly
when it does not contain exactly one colon separator. -/
theorem parse_errors_iff :
    (∀ s : List Char, s ≠ [] →
      ((parse_interval s = .error .invalidDuration) ↔
        ((∃ c, s.getLast? = some c ∧ c ∉ (['d', 'h', 'm', 'w'] : List Char)) ∨
          pyInt s.dropLast = none)))
    ∧ (∀ s : List Char, (parse_keep s = .error .invalidPolicy) ↔ s.count ':' ≠ 1) := by
  constructor
  · intro s hs
    rcases hlast : s.getLast? with _ | c
    · exact absurd (List.getLast?_eq_none_iff.mp hlast) hs
    · rw [parse_interval_invalidDuration_iff s c hlast]
      constructor
      · rintro (hu | hp)
        · exact Or.inl ⟨c, rfl, (unitSeconds_eq_none_iff c).mp hu⟩
        · exact Or.inr hp
      · rintro (⟨c', hc', hmem⟩ | hp)
        · cases hc'
          exact Or.inl ((unitSeconds_eq_none_iff c).mpr hmem)
        · exact Or.inr hp
  · intro s
    have hlen := splitColon_length s
    constructor
    · intro h hcount
      rcases hsp : splitColon s with _ | ⟨a, _ | ⟨b, _ | ⟨c, t⟩⟩⟩
      · simp [hsp] at hlen
      · simp [hsp] at hlen; omega
      · unfold parse_keep at h
        rw [hsp] at h
        rcases ha : parse_interval a with e | i
        · simp only [ha, Except.error.injEq] at h
          rw [h] at ha
          exact parse_interval_ne_invalidPolicy a ha
        · simp only [ha] at h
          rcases hb : parse_interval b with e | g
          · simp only [hb, Except.error.injEq] at h
            rw [h] at hb
            exact parse_interval_ne_invalidPolicy b hb
          · simp [hb] at h
      · simp [hsp] at hlen; omega
    · intro hcount
      rcases hsp : splitColon s with _ | ⟨a, _ | ⟨b, _ | ⟨c, t⟩⟩⟩
      · simp [hsp] at hlen
      · unfold parse_keep
        rw [hsp]
      · simp [hsp] at hlen; omega
      · unfold parse_keep
        rw [hsp]

/-! Properties of the thinning pass. -/

theorem thinKept_nil (i : Int) (lk : Option Int) : thinKept i lk [] = [] := rfl

theorem thinKept_cons (i : Int) (lk : Option Int) (s : Snapshot) (rest : List Snapshot) :
    thinKept i lk (s :: rest) =
      if i = 0 || tooClose i lk s.created_at then thinKept i lk rest
      else s :: thinKept i (some s.created_at) rest := rfl

theorem thinKept_sublist (i : Int) :
    ∀ (G : List Snapshot) (lk : Option Int), (thinKept i lk G).Sublist G := by
  intro G
  induction G with
  | nil => intro lk; exact List.Sublist.refl []
  | cons s rest ih =>
    intro lk
    rw [thinKept_cons]
    by_cases hc : (decide (i = 0) || tooClose i lk s.created_at) = true
    · rw [if_pos hc]
      exact (ih lk).cons s
    · rw [if_neg hc]
      exact (ih (some s.created_at)).cons₂ s

theorem thinKept_of_zero (lk : Option Int) (G : List Snapshot) : thinKept 0 lk G = [] := by
  induction G generalizing lk with
  | nil => rfl
  | cons s rest ih => rw [thinKept_cons]; simp [ih]

theorem thinKept_spacing (i : Int) :
    ∀ (G : List Snapshot) (lk : Option Int),
      List.Chain' (fun s t => i ≤ t.created_at - s.created_at) (thinKept i lk G) ∧
      (∀ v, lk = some v → ∀ f ∈ (thinKept i lk G).head?, i ≤ f.created_at - v) := by
  intro G
  induction G with
  | nil => intro lk; simp [thinKept_nil]
  | cons s rest ih =>
    intro lk
    rw [thinKept_cons]
    by_cases hc : (decide (i = 0) || tooClose i lk s.created_at) = true
    · rw [if_pos hc]
      exact ih lk
    · rw [if_neg hc]
      simp only [Bool.or_eq_true, not_or, decide_eq_true_eq, Bool.not_eq_true] at hc
      constructor
      · rw [List.chain'_cons']
        exact ⟨fun y hy => (ih (some s.created_at)).2 s.created_at rfl y hy,
          (ih (some s.created_at)).1⟩
      · intro v hv f hf
        simp only [List.head?_cons, Option.mem_def, Option.some.injEq] at hf
        subst hf
        subst hv
        have := hc.2
        simp only [tooClose, decide_eq_false_iff_not, not_lt] at this
        exact this

theorem thinKept_eq_self (i : Int) (hi : i ≠ 0) :
    ∀ (L : List Snapshot) (lk : Option Int),
      List.Chain' (fun s t => i ≤ t.created_at - s.created_at) L →
      (∀ v, lk = some v → ∀ f ∈ L.head?, i ≤ f.created_at - v) →
      thinKept i lk L = L := by
  intro L
  induction L with
  | nil => intro lk _ _; rfl
  | cons s rest ih =>
    intro lk hchain hhead
    rw [thinKept_cons]
    have hcond : (decide (i = 0) || tooClose i lk s.created_at) = false := by
      cases lk with
      | none => simp [tooClose, hi]
      | some v =>
        have hv := hhead v rfl s (by simp)
        simp only [Bool.or_eq_false_iff, decide_eq_false_iff_not, tooClose]
        exact ⟨hi, by simp; omega⟩
    rw [if_neg (by simp [hcond])]
    congr 1
    refine ih (some s.created_at) hchain.tail ?_
    intro v hv f hf
    rw [Option.some.injEq] at hv
    subst hv
    exact (List.chain'_cons'.mp hchain).1 f hf

/-- For a sublist K of a list G whose images under a key function are
distinct, filtering G to the members whose key occurs in K recovers
exactly K.  (The source deletes snapshots from a dict keyed on id; this is
the identity making the id-based filter model faithful.) -/
theorem filter_key_mem_of_sublist {α β : Type} [DecidableEq β] (f : α → β) :
    ∀ {K G : List α}, K.Sublist G → (G.map f).Nodup →
      G.filter (fun a => (K.map f).contains (f a)) = K := by
  intro K G h
  induction h with
  | slnil => intro _; rfl
  | @cons l₁ l₂ a h ih =>
    intro hnd
    rw [List.map_cons, List.nodup_cons] at hnd
    rw [List.filter_cons, if_neg ?_]
    · exact ih hnd.2
    · simp only [List.elem_iff, decide_eq_true_eq]
      intro hmem
      exact hnd.1 ((h.map f).subset hmem)
  | @cons₂ l₁ l₂ a h ih =>
    intro hnd
    rw [List.map_cons, List.nodup_cons] at hnd
    rw [List.filter_cons, if_pos ?_]
    · rw [List.map_cons]
      congr 1
      rw [List.filter_congr ?_]
      · exact ih hnd.2
      · intro x hx
        have hne : f x ≠ f a := by
          intro he
          exact hnd.1 (he ▸ List.mem_map_of_mem f hx)
        simp [List.elem_iff, hne]
    · simp [List.elem_iff]

/-- With distinct snapshot ids, the survivors assigned to tier p are exactly
that tier's thinning output: restricting the survivor list of
apply_retention_policies to the snapshots the assignment scan sends to p
gives the kept list of p's group. -/
theorem retention_tier_filter (snaps : List Snapshot) (pols : List Policy) (now : Int)
    (hid : (snaps.map Snapshot.id).Nodup) (p : Policy) :
    (apply_retention_policies snaps pols now).filter
        (fun s => assignTier pols (now - s.created_at) = some p) =
      thinKept p.1 none (tierGroup pols now (sortedAnn snaps now) p) := by
  have hGsub : (tierGroup pols now (sortedAnn snaps now) p).Sublist (sortedAnn snaps now) :=
    List.filter_sublist _
  have hGnd : ((tierGroup pols now (sortedAnn snaps now) p).map Snapshot.id).Nodup :=
    (sortedAnn_ids_nodup snaps now hid).sublist (hGsub.map Snapshot.id)
  rw [apply_retention_policies_def, List.filter_filter]
  have h1 : (sortedAnn snaps now).filter
      (fun a => decide (assignTier pols (now - a.created_at) = some p) && survives pols now (sortedAnn snaps now) a) =
      (sortedAnn snaps now).filter
      (fun a => ((thinKept p.1 none (tierGroup pols now (sortedAnn snaps now) p)).map Snapshot.id).contains a.id
        && decide (assignTier pols (now - a.created_at) = some p)) := by
    apply List.filter_congr
    intro x hx
    by_cases hax : assignTier pols (now - x.created_at) = some p
    · simp [survives, hax, Bool.and_comm]
    · simp [hax]
  rw [h1, ← List.filter_filter]
  exact filter_key_mem_of_sublist Snapshot.id (thinKept_sublist p.1 _ none) hGnd

/-- Snapshots the assignment scan exempts are returned untouched by the
retention pass (beyond the stored created_dt and age keys). -/
theorem exempt_mem_survivors (snaps : List Snapshot) (pols : List Policy) (now : Int)
    {s : Snapshot} (hs : s ∈ snaps)
    (hnone : assignTier pols (now - s.created_at) = none) :
    annotate now s ∈ apply_retention_policies snaps pols now := by
  rw [apply_retention_policies_def]
  refine List.mem_filter.mpr ⟨mem_sortedAnn snaps now hs, ?_⟩
  simp only [survives, annotate_created_at, hnone]

/-- C3: in the survivor list, any two consecutive snapshots assigned to the
same tier are spaced at least that tier's interval apart, and a tier whose
interval is zero (falsy) keeps no snapshot at all. -/
theorem retention_spacing_invariant (snaps : List Snapshot) (pols : List Policy)
    (now : Int) (hid : (snaps.map Snapshot.id).Nodup) (p : Policy) :
    (p.1 = 0 →
      (apply_retention_policies snaps pols now).filter
          (fun s => assignTier pols (now - s.created_at) = some p) = [])
    ∧ List.Chain' (fun s t => p.1 ≤ t.created_at - s.created_at)
        ((apply_retention_policies snaps pols now).filter
          (fun s => assignTier pols (now - s.created_at) = some p)) := by
  rw [retention_tier_filter snaps pols now hid p]
  constructor
  · intro h0
    rw [h0]
    exact thinKept_of_zero none _
  · by_cases h0 : p.1 = 0
    · rw [h0, thinKept_of_zero]
      exact List.chain'_nil
    · exact (thinKept_spacing p.1 _ none).1

/-- Every survivor is the stored-key image of an input snapshot. -/
theorem retention_mem (snaps : List Snapshot) (pols : List Policy) (now : Int) :
    ∀ t ∈ apply_retention_policies snaps pols now, ∃ s ∈ snaps, t = annotate now s := by
  intro t ht
  rw [apply_retention_policies_def] at ht
  exact sortedAnn_mem snaps now (List.mem_of_mem_filter ht)

/-- The survivor list is sorted ascending by creation time. -/
theorem retention_sorted (snaps : List Snapshot) (pols : List Policy) (now : Int) :
    List.Sorted createdLE (apply_retention_policies snaps pols now) := by
  rw [apply_retention_policies_def]
  exact List.Pairwise.sublist (List.filter_sublist _) (sortedAnn_sorted snaps now)

/-- Distinct input ids give distinct survivor ids. -/
theorem retention_ids_nodup (snaps : List Snapshot) (pols : List Policy) (now : Int)
    (hid : (snaps.map Snapshot.id).Nodup) :
    ((apply_retention_policies snaps pols now).map Snapshot.id).Nodup := by
  rw [apply_retention_policies_def]
  exact (sortedAnn_ids_nodup snaps now hid).sublist ((List.filter_sublist _).map Snapshot.id)

/-- C9: every survivor returned by apply_retention_policies is one of the
input snapshots (carrying the stored created_dt and age keys the pass
writes onto it, its other fields untouched), the survivor list is sorted
ascending by creation time, and distinct input ids give distinct survivor
ids (nothing is created or duplicated). -/
theorem retention_survivors_subset (snaps : List Snapshot) (pols : List Policy)
    (now : Int) :
    (∀ t ∈ apply_retention_policies snaps pols now, ∃ s ∈ snaps, t = annotate now s)
    ∧ List.Sorted createdLE (apply_retention_policies snaps pols now)
    ∧ ((snaps.map Snapshot.id).Nodup →
        ((apply_retention_policies snaps pols now).map Snapshot.id).Nodup) :=
  ⟨retention_mem snaps pols now, retention_sorted snaps pols now,
    retention_ids_nodup snaps pols now⟩

/-- C2: with distinct snapshot ids (the data-model invariant) and tiers
given in descending threshold order, the retention pass is idempotent: a
second application to the survivors, with the same tiers and the same
reference time, returns the survivor list unchanged. -/
theorem retention_idempotent (snaps : List Snapshot) (pols : List Policy) (now : Int)
    (hid : (snaps.map Snapshot.id).Nodup)
    (_hdesc : pols.Pairwise (fun p q => q.2 ≤ p.2)) :
    apply_retention_policies (apply_retention_policies snaps pols now) pols now =
      apply_retention_policies snaps pols now := by
  have hsorted : List.Sorted createdLE (apply_retention_policies snaps pols now) :=
    retention_sorted snaps pols now
  have hmem : ∀ t ∈ apply_retention_policies snaps pols now, ∃ s ∈ snaps, t = annotate now s :=
    retention_mem snaps pols now
  have hSA : sortedAnn (apply_retention_policies snaps pols now) now =
      apply_retention_policies snaps pols now := by
    unfold sortedAnn sortSnapshots
    rw [hsorted.insertionSort_eq]
    have hfix : ∀ t ∈ apply_retention_policies snaps pols now, annotate now t = t := by
      intro t ht
      obtain ⟨s, _, rfl⟩ := hmem t ht
      exact annotate_annotate now s
    rw [List.map_congr_left hfix]
    simp
  conv_lhs => rw [apply_retention_policies_def, hSA]
  rw [List.filter_eq_self]
  intro t ht
  rcases hassign : assignTier pols (now - t.created_at) with _ | p
  · simp [survives, hassign]
  · have hKp := retention_tier_filter snaps pols now hid p
    have htK : t ∈ thinKept p.1 none (tierGroup pols now (sortedAnn snaps now) p) := by
      rw [← hKp]
      exact List.mem_filter.mpr ⟨ht, by simp [hassign]⟩
    have hp0 : p.1 ≠ 0 := by
      intro h0
      rw [h0, thinKept_of_zero] at htK
      exact absurd htK (List.not_mem_nil t)
    have hKK : thinKept p.1 none
        (thinKept p.1 none (tierGroup pols now (sortedAnn snaps now) p)) =
        thinKept p.1 none (tierGroup pols now (sortedAnn snaps now) p) := by
      refine thinKept_eq_self p.1 hp0 _ none (thinKept_spacing p.1 _ none).1 ?_
      intro v hv
      exact absurd hv (by simp)
    have hGW : tierGroup pols now (apply_retention_policies snaps pols now) p =
        thinKept p.1 none (tierGroup pols now (sortedAnn snaps now) p) := hKp
    simp only [survives, hassign]
    rw [hGW, hKK]
    simp only [List.elem_iff, decide_eq_true_eq]
    exact List.mem_map_of_mem Snapshot.id htK

/-- The assignment scan misses every tier exactly when the age is below
every tier's threshold. -/
theorem assignTier_none_iff (pols : List Policy) (a : Int) :
    assignTier pols a = none ↔ ∀ q ∈ pols, a < q.2 := by
  unfold assignTier
  rw [List.find?_eq_none]
  constructor
  · intro h q hq
    have := h q hq
    simpa using this
  · intro h q hq
    simpa using (h q hq).not_le

/-- With tiers in descending threshold order, the assignment scan returns a
tier of the list whose threshold the age meets, and that threshold is
maximal among the thresholds not exceeding the age. -/
theorem assignTier_max (a : Int) :
    ∀ pols : List Policy, pols.Pairwise (fun p q => q.2 ≤ p.2) →
      ∀ p, assignTier pols a = some p →
        p ∈ pols ∧ p.2 ≤ a ∧ ∀ q ∈ pols, q.2 ≤ a → q.2 ≤ p.2 := by
  intro pols
  induction pols with
  | nil => intro _ p hp; simp [assignTier] at hp
  | cons r rest ih =>
    intro hdesc p hp
    rw [List.pairwise_cons] at hdesc
    unfold assignTier at hp
    by_cases hr : r.2 ≤ a
    · rw [List.find?_cons_of_pos _ (by simpa using hr)] at hp
      cases hp
      refine ⟨List.mem_cons_self r rest, hr, ?_⟩
      intro q hq hqa
      rcases List.mem_cons.mp hq with rfl | hq'
      · exact le_refl _
      · exact hdesc.1 q hq'
    · rw [List.find?_cons_of_neg _ (by simpa using hr)] at hp
      obtain ⟨hpmem, hpa, hmax⟩ := ih hdesc.2 p hp
      refine ⟨List.mem_cons_of_mem r hpmem, hpa, ?_⟩
      intro q hq hqa
      rcases List.mem_cons.mp hq with rfl | hq'
      · exact absurd hqa hr
      · exact hmax q hq' hqa

/-- C4: with tiers sorted by descending threshold age, the assignment scan
gives each snapshot the tier with the largest threshold not exceeding the
snapshot's age; a snapshot below every threshold is assigned no tier, and
such an exempt snapshot always appears in the survivor set. -/
theorem tier_assignment_correct (pols : List Policy)
    (hdesc : pols.Pairwise (fun p q => q.2 ≤ p.2)) :
    (∀ a p, assignTier pols a = some p →
        p ∈ pols ∧ p.2 ≤ a ∧ ∀ q ∈ pols, q.2 ≤ a → q.2 ≤ p.2)
    ∧ (∀ a, assignTier pols a = none ↔ ∀ q ∈ pols, a < q.2)
    ∧ (∀ (snaps : List Snapshot) (now : Int) (s : Snapshot), s ∈ snaps →
        assignTier pols (now - s.created_at) = none →
        annotate now s ∈ apply_retention_policies snaps pols now) := by
  refine ⟨fun a p hp => assignTier_max a pols hdesc p hp,
    fun a => assignTier_none_iff pols a,
    fun snaps now s hs hnone => exempt_mem_survivors snaps pols now hs hnone⟩

/-! The scheduler decision (claim C1). -/

/-- In a list sorted ascending by creation time, the last element is newest. -/
theorem sorted_le_getLast :
    ∀ l : List Snapshot, List.Sorted createdLE l →
      ∀ x ∈ l, ∀ y, l.getLast? = some y → x.created_at ≤ y.created_at := by
  intro l
  induction l with
  | nil => intro _ x hx; cases hx
  | cons a t ih =>
    intro hs x hx y hy
    rcases t with _ | ⟨b, t'⟩
    · rcases List.mem_singleton.mp hx with rfl
      rw [List.getLast?_singleton, Option.some.injEq] at hy
      subst hy
      exact le_refl _
    · rw [List.getLast?_cons_cons] at hy
      rcases List.mem_cons.mp hx with rfl | hx'
      · exact List.rel_of_sorted_cons hs y (List.mem_of_mem_getLast? hy)
      · exact ih hs.tail x hx' y hy

/-- The new-snapshot decision of process_droplet tests the newest snapshot
of the sorted input list: a snapshot is taken exactly when the input is
empty or that newest input snapshot's age reaches min_age. -/
theorem process_droplet_snd (snaps : List Snapshot) (pols : List Policy)
    (mina : Int) (regs : List String) (pre : String) (now : Int) :
    (process_droplet snaps pols mina regs pre now).2 =
      if (match (sortSnapshots snaps).getLast? with
          | none => true
          | some s => decide (mina ≤ now - s.created_at)) = true
      then some (pre ++ stampTime now) else none := rfl

theorem sortSnapshots_eq_nil_iff (snaps : List Snapshot) :
    sortSnapshots snaps = [] ↔ snaps = [] := by
  constructor
  · intro h0
    have hlen : (sortSnapshots snaps).length = snaps.length :=
      List.length_insertionSort createdLE snaps
    rw [h0] at hlen
    exact List.length_eq_zero.mp hlen.symm
  · intro h
    subst h
    rfl

theorem process_droplet_due_iff (snaps : List Snapshot) (pols : List Policy)
    (mina : Int) (regs : List String) (pre : String) (now : Int) :
    (process_droplet snaps pols mina regs pre now).2.isSome = true ↔
      (snaps = [] ∨ ∃ s, (sortSnapshots snaps).getLast? = some s ∧
        mina ≤ now - s.created_at) := by
  rw [process_droplet_snd]
  rcases hlast : (sortSnapshots snaps).getLast? with _ | s
  · have hnil : snaps = [] := (sortSnapshots_eq_nil_iff snaps).mp
      (List.getLast?_eq_none_iff.mp hlast)
    simp [hnil]
  · have hne : snaps ≠ [] := by
      intro h
      rw [(sortSnapshots_eq_nil_iff snaps).mpr h] at hlast
      simp at hlast
    by_cases hdue : mina ≤ now - s.created_at
    · simp only [hdue, decide_True, if_true, Option.isSome_some, true_iff]
      exact Or.inr ⟨s, rfl, hdue⟩
    · simp [hdue, hne]

/-- When every tier's threshold age is at least the minimum-freshness age
(the configuration main warns about otherwise), the decision of
process_droplet coincides with the spec's survivor-based rule. -/
theorem scheduler_agrees_of_sane (snaps : List Snapshot) (pols : List Policy)
    (mina : Int) (regs : List String) (pre : String) (now : Int)
    (hsane : ∀ p ∈ pols, mina ≤ p.2) :
    (process_droplet snaps pols mina regs pre now).2.isSome =
      scheduler_due_per_spec (apply_retention_policies snaps pols now) mina now := by
  have hWsorted := retention_sorted snaps pols now
  rw [process_droplet_snd]
  unfold scheduler_due_per_spec
  rw [show sortSnapshots (apply_retention_policies snaps pols now) =
      apply_retention_policies snaps pols now from hWsorted.insertionSort_eq]
  rcases hlast : (sortSnapshots snaps).getLast? with _ | s
  · have hnil : snaps = [] := (sortSnapshots_eq_nil_iff snaps).mp
      (List.getLast?_eq_none_iff.mp hlast)
    subst hnil
    rfl
  · by_cases hdue : mina ≤ now - s.created_at
    · simp only [hdue, decide_True, if_true, Option.isSome_some]
      rcases hW : (apply_retention_policies snaps pols now).getLast? with _ | w
      · rfl
      · obtain ⟨u, hu, rfl⟩ := retention_mem snaps pols now w (List.mem_of_mem_getLast? hW)
        have hle : u.created_at ≤ s.created_at :=
          sorted_le_getLast _ (List.sorted_insertionSort createdLE snaps) u
            ((List.mem_insertionSort createdLE).mpr hu) s hlast
        have hge : mina ≤ now - (annotate now u).created_at := by
          rw [annotate_created_at]
          omega
        simp [hge]
    · have hexempt : assignTier pols (now - s.created_at) = none := by
        refine (assignTier_none_iff pols _).mpr ?_
        intro q hq
        have := hsane q hq
        omega
      have hsmem : s ∈ snaps :=
        (List.mem_insertionSort createdLE).mp (List.mem_of_mem_getLast? hlast)
      have hsW : annotate now s ∈ apply_retention_policies snaps pols now :=
        exempt_mem_survivors snaps pols now hsmem hexempt
      rcases hW : (apply_retention_policies snaps pols now).getLast? with _ | w
      · rw [List.getLast?_eq_none_iff] at hW
        rw [hW] at hsW
        cases hsW
      · obtain ⟨u, hu, hwu⟩ := retention_mem snaps pols now w (List.mem_of_mem_getLast? hW)
        have h1 : w.created_at ≤ s.created_at := by
          rw [hwu, annotate_created_at]
          exact sorted_le_getLast _ (List.sorted_insertionSort createdLE snaps) u
            ((List.mem_insertionSort createdLE).mpr hu) s hlast
        have h2 : s.created_at ≤ w.created_at := by
          have := sorted_le_getLast _ hWsorted (annotate now s) hsW w hW
          rwa [annotate_created_at] at this
        have hsw : w.created_at = s.created_at := le_antisymm h1 h2
        simp [hsw, hdue]

/-- C1 counterexample: the scheduler decision is not a function of the
survivor set.  With one snapshot aged two days, a tier that retains nothing
beyond one day, and minFreshness of three days, the survivor set is empty
(so the spec's survivor-based rule says a snapshot is due), yet
process_droplet takes no snapshot, because it tests the newest snapshot of
the pre-retention input list, whose age is below minFreshness. -/
theorem scheduler_survivor_rule_counterexample :
    (process_droplet [⟨0, "s0", -172800, [], none, none⟩] [(0, 86400)] 259200 [] "snap-" 0).2
        = none
    ∧ apply_retention_policies [⟨0, "s0", -172800, [], none, none⟩] [(0, 86400)] 0 = []
    ∧ scheduler_due_per_spec
        (apply_retention_policies [⟨0, "s0", -172800, [], none, none⟩] [(0, 86400)] 0)
        259200 0 = true :=
  ⟨rfl, by decide, rfl⟩

/-- C1 amended: the scheduler tests the newest snapshot of the sorted input
list, not the survivor list: a new snapshot is due exactly when the input
is empty or the newest input snapshot's age reaches minFreshness.  Whenever
every tier's threshold age is at least minFreshness, this coincides with
the survivor-based rule; with minFreshness of three days, a sole snapshot
aged exactly three days makes a snapshot due and one aged two days
twenty-three hours does not. -/
theorem scheduler_threshold_amended :
    (∀ (snaps : List Snapshot) (pols : List Policy) (mina : Int) (regs : List String)
        (pre : String) (now : Int),
      ((process_droplet snaps pols mina regs pre now).2.isSome = true ↔
        (snaps = [] ∨ ∃ s, (sortSnapshots snaps).getLast? = some s ∧
          mina ≤ now - s.created_at)))
    ∧ (∀ (snaps : List Snapshot) (pols : List Policy) (mina : Int) (regs : List String)
        (pre : String) (now : Int), (∀ p ∈ pols, mina ≤ p.2) →
      (process_droplet snaps pols mina regs pre now).2.isSome =
        scheduler_due_per_spec (apply_retention_policies snaps pols now) mina now)
    ∧ (process_droplet [⟨0, "a", -259200, [], none, none⟩] [] 259200 [] "snap-" 0).2.isSome
        = true
    ∧ (process_droplet [⟨0, "b", -255600, [], none, none⟩] [] 259200 [] "snap-" 0).2.isSome
        = false :=
  ⟨process_droplet_due_iff, scheduler_agrees_of_sane, by decide, by decide⟩

/-! The stored-field frame of the retention pass (claim C8). -/

/-- C8 counterexample: apply_retention_policies does store onto the
snapshot: a snapshot that enters the pass without an age key leaves it with
the age key set, so not every stored field other than the region set is
left unchanged. -/
theorem retention_age_stored_counterexample :
    ∃ t ∈ apply_retention_policies [⟨0, "s0", -86400, ["nyc1"], none, none⟩] [] 0,
      t.age ≠ (⟨0, "s0", -86400, ["nyc1"], none, none⟩ : Snapshot).age := by decide

/-- C8 amended: the retention pass leaves id, name, creation timestamp and
region set of every survivor unchanged, but stores the derived created_dt
and age keys (age computed from the fixed reference time) onto it; region
sync keeps every other field and only ever adds regions. -/
theorem retention_frame_amended (snaps : List Snapshot) (pols : List Policy) (now : Int) :
    (∀ t ∈ apply_retention_policies snaps pols now, ∃ s ∈ snaps,
        t.id = s.id ∧ t.name = s.name ∧ t.created_at = s.created_at ∧
        t.regions = s.regions ∧ t.age = some (now - s.created_at) ∧
        t.created_dt = some s.created_at)
    ∧ (∀ (s : Snapshot) (regs : List String),
        (syncRegions s regs).2.id = s.id ∧ (syncRegions s regs).2.name = s.name ∧
        (syncRegions s regs).2.created_at = s.created_at ∧
        (syncRegions s regs).2.age = s.age ∧
        (syncRegions s regs).2.created_dt = s.created_dt ∧
        ∀ r ∈ s.regions, r ∈ (syncRegions s regs).2.regions) := by
  constructor
  · intro t ht
    obtain ⟨s, hs, rfl⟩ := retention_mem snaps pols now t ht
    exact ⟨s, hs, rfl, rfl, rfl, rfl, rfl, rfl⟩
  · intro s regs
    refine ⟨rfl, rfl, rfl, rfl, rfl, ?_⟩
    intro r hr
    exact List.mem_append_left _ hr

/-! The simulation loop (claims C6 and C10). -/

theorem simTick_now (pols : List Policy) (mina tick : Int) (regs : List String)
    (pre : String) (s : SimState) :
    (simTick pols mina tick regs pre s).now = s.now + tick := rfl

/-- The simulation loop relation is deterministic: from one state it can
only reach one final state. -/
theorem simRun_det (pols : List Policy) (mina tick : Int) (regs : List String)
    (pre : String) (endT : Int) :
    ∀ s T1, SimRun pols mina tick regs pre endT s T1 →
      ∀ T2, SimRun pols mina tick regs pre endT s T2 → T1 = T2 := by
  intro s T1 h1
  induction h1 with
  | done u hns =>
    intro T2 h2
    cases h2 with
    | done _ _ => rfl
    | step _ _ hlt _ => exact absurd hlt hns
  | step u T hlt hrun ih =>
    intro T2 h2
    cases h2 with
    | done _ hns => exact absurd hlt hns
    | step _ _ _ h2' => exact ih T2 h2'

/-- A run with tick interval zero never leaves a state whose clock is still
before the end instant: the clock does not advance, so the loop guard never
becomes false. -/
theorem simRun_zero_tick (pols : List Policy) (mina : Int) (regs : List String)
    (pre : String) (endT : Int) :
    ∀ s T, SimRun pols mina 0 regs pre endT s T → ¬ s.now < endT := by
  intro s T h
  induction h with
  | done u hns => exact hns
  | step u T hlt hrun ih =>
    intro _
    refine ih ?_
    rw [simTick_now]
    omega

/-- C6: simulation determinism.  The synthetic run is a relation of its
five inputs only (tiers, minimum freshness, tick interval, end instant
derived from start time plus total duration, and the start state with an
empty snapshot set and clock at the start time); two runs with identical
inputs end in the same state, in particular with bit-identical final
survivor lists.  No real-time clock or random source occurs in the
relation. -/
theorem simulation_deterministic (pols : List Policy) (mina tick : Int)
    (regs : List String) (pre : String) (start dur : Int) (T1 T2 : SimState)
    (h1 : SimRun pols mina tick regs pre (start + dur) ⟨[], start, 0⟩ T1)
    (h2 : SimRun pols mina tick regs pre (start + dur) ⟨[], start, 0⟩ T2) :
    T1.snapshots = T2.snapshots ∧ T1 = T2 := by
  have heq := simRun_det pols mina tick regs pre (start + dur) _ T1 h1 T2 h2
  exact ⟨by rw [heq], heq⟩

/-- Witness for C6: a one-iteration run, built twice, ends identically. -/
theorem simulation_deterministic_witness :
    (simTick [] 86400 3600 [] "snap-" ⟨[], 0, 0⟩).snapshots =
      (simTick [] 86400 3600 [] "snap-" ⟨[], 0, 0⟩).snapshots ∧
    (simTick [] 86400 3600 [] "snap-" ⟨[], 0, 0⟩ : SimState) =
      simTick [] 86400 3600 [] "snap-" ⟨[], 0, 0⟩ :=
  simulation_deterministic [] 86400 3600 [] "snap-" 0 3600 _ _
    (SimRun.step _ _ (by decide) (SimRun.done _ (by decide)))
    (SimRun.step _ _ (by decide) (SimRun.done _ (by decide)))

/-- C10: the simulation loop terminates from every state when the tick
interval is positive (the clock strictly increases until it reaches the end
instant); a zero tick interval is accepted by the duration parser (the
token 0d parses to the zero duration, nothing rejects it), and with the
clock still before the end instant a zero-tick loop admits no terminating
run. -/
theorem simulation_termination (pols : List Policy) (mina : Int) (regs : List String)
    (pre : String) (tick endT : Int) :
    (0 < tick → ∀ s : SimState, ∃ T, SimRun pols mina tick regs pre endT s T)
    ∧ (tick = 0 → ∀ s : SimState, s.now < endT →
        ¬ ∃ T, SimRun pols mina tick regs pre endT s T)
    ∧ parse_interval ['0', 'd'] = .ok 0 := by
  refine ⟨?_, ?_, rfl⟩
  · intro htick
    have key : ∀ (n : Nat) (s : SimState), (endT - s.now).toNat ≤ n →
        ∃ T, SimRun pols mina tick regs pre endT s T := by
      intro n
      induction n with
      | zero =>
        intro s hn
        exact ⟨s, SimRun.done s (by omega)⟩
      | succ n ih =>
        intro s hn
        by_cases hlt : s.now < endT
        · obtain ⟨T, hT⟩ := ih (simTick pols mina tick regs pre s)
            (by rw [simTick_now]; omega)
          exact ⟨T, SimRun.step s T hlt hT⟩
        · exact ⟨s, SimRun.done s hlt⟩
    intro s
    exact key (endT - s.now).toNat s (le_refl _)
  · rintro rfl s hlt ⟨T, hT⟩
    exact simRun_zero_tick pols mina regs pre endT s T hT hlt

/-- Witness for C10: with a one-hour tick the two-hour simulation admits a
terminating run, and with a zero tick it admits none. -/
theorem simulation_termination_witness :
    (∃ T, SimRun [] 86400 3600 [] "snap-" 7200 ⟨[], 0, 0⟩ T)
    ∧ ¬ ∃ T, SimRun [] 86400 0 [] "snap-" 7200 ⟨[], 0, 0⟩ T :=
  ⟨(simulation_termination [] 86400 [] "snap-" 3600 7200).1 (by decide) ⟨[], 0, 0⟩,
   (simulation_termination [] 86400 [] "snap-" 0 7200).2.1 rfl ⟨[], 0, 0⟩ (by decide)⟩

/-! Concrete witnesses for the theorems with hypotheses. -/

/-- Witness for C7 at concrete tokens: 3x fails as a duration, 1d7d fails
as a retention token. -/
theorem parse_errors_iff_witness :
    parse_interval ['3', 'x'] = .error .invalidDuration ∧
    parse_keep ['1', 'd', '7', 'd'] = .error .invalidPolicy :=
  ⟨(parse_errors_iff.1 ['3', 'x'] (by decide)).mpr (Or.inl ⟨'x', rfl, by decide⟩),
   (parse_errors_iff.2 ['1', 'd', '7', 'd']).mpr (by decide)⟩

/-- Witness for C2 on the spec's oldest-bias configuration: snapshots aged
ten, nine, eight and one days under a five-day-interval, seven-day-age
tier. -/
theorem retention_idempotent_witness :
    apply_retention_policies
      (apply_retention_policies
        [⟨0, "a", -864000, [], none, none⟩, ⟨1, "b", -777600, [], none, none⟩,
         ⟨2, "c", -691200, [], none, none⟩, ⟨3, "d", -86400, [], none, none⟩]
        [(432000, 604800)] 0)
      [(432000, 604800)] 0 =
    apply_retention_policies
      [⟨0, "a", -864000, [], none, none⟩, ⟨1, "b", -777600, [], none, none⟩,
       ⟨2, "c", -691200, [], none, none⟩, ⟨3, "d", -86400, [], none, none⟩]
      [(432000, 604800)] 0 :=
  retention_idempotent
    [⟨0, "a", -864000, [], none, none⟩, ⟨1, "b", -777600, [], none, none⟩,
     ⟨2, "c", -691200, [], none, none⟩, ⟨3, "d", -86400, [], none, none⟩]
    [(432000, 604800)] 0 (by decide) (by decide)

/-- Witness for C3 on the same configuration. -/
theorem retention_spacing_invariant_witness :
    (((432000, 604800) : Policy).1 = 0 →
      (apply_retention_policies
          [⟨0, "a", -864000, [], none, none⟩, ⟨1, "b", -777600, [], none, none⟩,
           ⟨2, "c", -691200, [], none, none⟩, ⟨3, "d", -86400, [], none, none⟩]
          [(432000, 604800)] 0).filter
        (fun s => assignTier [(432000, 604800)] (0 - s.created_at) =
          some ((432000, 604800) : Policy)) = [])
    ∧ List.Chain' (fun s t => ((432000, 604800) : Policy).1 ≤ t.created_at - s.created_at)
        ((apply_retention_policies
            [⟨0, "a", -864000, [], none, none⟩, ⟨1, "b", -777600, [], none, none⟩,
             ⟨2, "c", -691200, [], none, none⟩, ⟨3, "d", -86400, [], none, none⟩]
            [(432000, 604800)] 0).filter
          (fun s => assignTier [(432000, 604800)] (0 - s.created_at) =
            some ((432000, 604800) : Policy))) :=
  retention_spacing_invariant
    [⟨0, "a", -864000, [], none, none⟩, ⟨1, "b", -777600, [], none, none⟩,
     ⟨2, "c", -691200, [], none, none⟩, ⟨3, "d", -86400, [], none, none⟩]
    [(432000, 604800)] 0 (by decide) ((432000, 604800) : Policy)

/-- Witness for C4: a one-day-old snapshot is exempt from a seven-day tier
and survives. -/
theorem tier_assignment_correct_witness :
    annotate 0 (⟨3, "d", -86400, [], none, none⟩ : Snapshot) ∈
      apply_retention_policies
        [⟨0, "a", -864000, [], none, none⟩, ⟨1, "b", -777600, [], none, none⟩,
         ⟨2, "c", -691200, [], none, none⟩, ⟨3, "d", -86400, [], none, none⟩]
        [(432000, 604800)] 0 :=
  (tier_assignment_correct [(432000, 604800)] (by decide)).2.2
    [⟨0, "a", -864000, [], none, none⟩, ⟨1, "b", -777600, [], none, none⟩,
     ⟨2, "c", -691200, [], none, none⟩, ⟨3, "d", -86400, [], none, none⟩]
    0 ⟨3, "d", -86400, [], none, none⟩ (by decide) (by decide)

/-- Witness for C9: the annotated one-day-old snapshot of a singleton input
stems from the input, and survivor ids stay distinct. -/
theorem retention_survivors_subset_witness :
    (∃ s ∈ [(⟨0, "s0", -86400, ["nyc1"], none, none⟩ : Snapshot)],
        annotate 0 (⟨0, "s0", -86400, ["nyc1"], none, none⟩ : Snapshot) = annotate 0 s)
    ∧ ((apply_retention_policies [⟨0, "s0", -86400, ["nyc1"], none, none⟩] [] 0).map
        Snapshot.id).Nodup :=
  ⟨(retention_survivors_subset [⟨0, "s0", -86400, ["nyc1"], none, none⟩] [] 0).1
      (annotate 0 ⟨0, "s0", -86400, ["nyc1"], none, none⟩) (by decide),
   (retention_survivors_subset [⟨0, "s0", -86400, ["nyc1"], none, none⟩] [] 0).2.2
      (by decide)⟩

/-- Witness for the amended C8 on the singleton input. -/
theorem retention_frame_amended_witness :
    ∃ s ∈ [(⟨0, "s0", -86400, ["nyc1"], none, none⟩ : Snapshot)],
      (⟨0, "s0", -86400, ["nyc1"], some 86400, some (-86400)⟩ : Snapshot).id = s.id ∧
      (⟨0, "s0", -86400, ["nyc1"], some 86400, some (-86400)⟩ : Snapshot).name = s.name ∧
      (⟨0, "s0", -86400, ["nyc1"], some 86400, some (-86400)⟩ : Snapshot).created_at
        = s.created_at ∧
      (⟨0, "s0", -86400, ["nyc1"], some 86400, some (-86400)⟩ : Snapshot).regions
        = s.regions ∧
      (⟨0, "s0", -86400, ["nyc1"], some 86400, some (-86400)⟩ : Snapshot).age
        = some (0 - s.created_at) ∧
      (⟨0, "s0", -86400, ["nyc1"], some 86400, some (-86400)⟩ : Snapshot).created_dt
        = some s.created_at :=
  (retention_frame_amended [⟨0, "s0", -86400, ["nyc1"], none, none⟩] [] 0).1
    ⟨0, "s0", -86400, ["nyc1"], some 86400, some (-86400)⟩ (by decide)

/-- Witness for the amended C1 on a sane configuration: a seven-day tier
with one-day interval, minimum freshness three days, one five-day-old
snapshot. -/
theorem scheduler_threshold_amended_witness :
    (process_droplet [⟨0, "c", -432000, [], none, none⟩] [(86400, 604800)]
        259200 [] "snap-" 0).2.isSome =
      scheduler_due_per_spec
        (apply_retention_policies [⟨0, "c", -432000, [], none, none⟩]
          [(86400, 604800)] 0) 259200 0 :=
  scheduler_threshold_amended.2.1 [⟨0, "c", -432000, [], none, none⟩]
    [(86400, 604800)] 259200 [] "snap-" 0 (by decide)

end DoSnapshot
